import Mathlib

/-!
Verification of the PolicyLens facts-resolution pipeline.

This development shallowly embeds the deterministic facts lookup layer of the
repository: `backend/services/facts_db.py` (schema loading, field
normalization, per-intent resolvers, and the `lookup_facts` orchestrator) and
the parts of `backend/services/md_search.py` needed for the markdown-fallback
claims, together with `Citation` from `backend/models.py` and
`DEFAULT_KEY_MAP` from `backend/config.py`.

The source file `facts_db.py` contains unresolved git merge-conflict markers;
the embedding follows the "Updated upstream" side of each conflict, which is
the variant the specification describes (course-keyed loading with `_schema`
key/field maps and the markdown fallback).

Modelling conventions:
* Python `dict`s become association lists (`List (String × String)` for
  records); lookup returns the first binding, and assignment (`d[k] = v`)
  replaces in place or appends, as `dinsert` below.  JSON values that matter
  to the claims are records-or-not, captured by `JVal`.
* Python strings become Lean `String`s; `str.lower`, `str.strip`,
  single-character `str.replace`, slicing, `in`, `startswith`, `split` and
  `join` are re-implemented over `List Char` (ASCII semantics, which is what
  `str.lower` does on the data involved and what Lean's `Char.toLower` does).
* File I/O is factored out: the loaded facts file and the markdown document
  content (or the result the markdown search would produce) are explicit
  arguments; a missing facts file is the `none` case and surfaces as
  `Except.error`, matching the `FileNotFoundError` raised by `_load_facts`.
* Float confidences become `ℚ` (all the literals involved are exact
  decimals, and the comparisons `>= 0.8` behave identically).
-/

namespace PolicyLens

/-! ### Python string primitives over `List Char` -/

/-- Prefix test on character lists (Python `str.startswith`, via lists). -/
def isPref : List Char → List Char → Bool
  | [], _ => true
  | _ :: _, [] => false
  | a :: as, b :: bs => a == b && isPref as bs

/-- Substring containment (Python `needle in hay`). -/
def pyContainsL (n : List Char) : List Char → Bool
  | [] => n.isEmpty
  | c :: t => isPref n (c :: t) || pyContainsL n t

/-- ASCII lowercase of a character list (Python `str.lower` on ASCII data). -/
def pyLowerL (l : List Char) : List Char := l.map Char.toLower

/-- Characters Python's `str.strip` removes. -/
def pySpace (c : Char) : Bool :=
  c == ' ' || c == '\t' || c == '\n' || c == '\x0d' || c == '\x0b' || c == '\x0c'

/-- Python `str.strip` on a character list. -/
def pyTrimL (l : List Char) : List Char :=
  ((l.dropWhile pySpace).reverse.dropWhile pySpace).reverse

/-- Python single-character `str.replace(a, b)`. -/
def pyReplaceL (a b : Char) (l : List Char) : List Char :=
  l.map fun c => if c == a then b else c

/-- Split a character list on a separator character (Python `str.split(sep)`). -/
def pySplitL (sep : Char) : List Char → List (List Char)
  | [] => [[]]
  | c :: t =>
    let rest := pySplitL sep t
    if c == sep then [] :: rest
    else match rest with
      | [] => [[c]]
      | h :: hs => (c :: h) :: hs

/-- String wrappers for the primitives above. -/
def pyLower (s : String) : String := ⟨pyLowerL s.data⟩

/-- Python `str.strip` on strings. -/
def pyTrim (s : String) : String := ⟨pyTrimL s.data⟩

/-- Python single-character `str.replace` on strings. -/
def pyReplace (a b : Char) (s : String) : String := ⟨pyReplaceL a b s.data⟩

/-- Python `needle in hay` on strings. -/
def pyContains (n h : String) : Bool := pyContainsL n.data h.data

/-- Python `s.startswith(p)` on strings. -/
def pyStartsWith (p s : String) : Bool := isPref p.data s.data

/-- Python slice `s[:n]`. -/
def pyTake (n : Nat) (s : String) : String := ⟨s.data.take n⟩

/-- Python `sep.join(parts)`. -/
def pyJoin (sep : String) : List String → String
  | [] => ""
  | [x] => x
  | x :: y :: t => x ++ sep ++ pyJoin sep (y :: t)

/-! ### Association-list model of Python dicts -/

/-- A JSON record: field name to string value, as Python dict (assoc list). -/
abbrev Rec := List (String × String)

/-- First-binding lookup, Python `d.get(k)` / `k in d`. -/
def alookup : List (String × String) → String → Option String
  | [], _ => none
  | (k', v) :: t, k => if k' = k then some v else alookup t k

/-- Python dict assignment `d[k] = v`: replace the binding in place if the key
is present (valid dicts have at most one), else append. -/
def dinsert : List (String × String) → String → String → List (String × String)
  | [], k, v => [(k, v)]
  | (k', v') :: t, k, v => if k' = k then (k, v) :: t else (k', v') :: dinsert t k v

/-- Python `d.get(k1, d.get(k2, dflt))`, the two-alias field access used
throughout `facts_db.py`. -/
def rget2 (r : Rec) (k1 k2 dflt : String) : String :=
  match alookup r k1 with
  | some v => v
  | none => (alookup r k2).getD dflt

/-! ### Basic lemmas about the dict model -/

theorem alookup_dinsert (n : List (String × String)) (k v k' : String) :
    alookup (dinsert n k v) k' = if k' = k then some v else alookup n k' := by
  induction n with
  | nil =>
    by_cases h : k' = k
    · subst h; simp [dinsert, alookup]
    · simp only [dinsert, alookup]
      rw [if_neg (fun hh => h (Eq.symm hh)), if_neg h]
  | cons kv t ih =>
    obtain ⟨k0, v0⟩ := kv
    by_cases h0 : k0 = k
    · subst h0
      by_cases h : k' = k0
      · subst h; simp [dinsert, alookup]
      · simp only [dinsert, if_pos rfl, alookup]
        rw [if_neg (fun hh => h (Eq.symm hh)), if_neg (fun hh => h (Eq.symm hh)),
          if_neg h]
    · by_cases h : k' = k0
      · subst h
        simp [dinsert, if_neg h0, alookup, h0]
      · simp only [dinsert, if_neg h0, alookup]
        rw [if_neg (fun hh => h (Eq.symm hh)), if_neg (fun hh => h (Eq.symm hh)), ih]

theorem alookup_eq_none_of_not_mem (l : List (String × String)) (k : String)
    (h : k ∉ l.map Prod.fst) : alookup l k = none := by
  induction l with
  | nil => rfl
  | cons kv t ih =>
    simp only [List.map_cons, List.mem_cons] at h
    push_neg at h
    simp [alookup, Ne.symm h.1, ih h.2]

/-! ### Dict merge (Python `{**a, **b}`) -/

/-- Python `{**a, **b}`: start from `a`, assign every binding of `b` in order. -/
def dmerge (a b : List (String × String)) : List (String × String) :=
  b.foldl (fun acc kv => dinsert acc kv.1 kv.2) a

theorem alookup_foldl_dinsert_of_not_mem (b : List (String × String))
    (a : List (String × String)) (k : String) (h : k ∉ b.map Prod.fst) :
    alookup (b.foldl (fun acc kv => dinsert acc kv.1 kv.2) a) k = alookup a k := by
  induction b generalizing a with
  | nil => rfl
  | cons kv t ih =>
    simp only [List.map_cons, List.mem_cons] at h
    push_neg at h
    simp only [List.foldl_cons]
    rw [ih _ h.2, alookup_dinsert, if_neg h.1]

theorem alookup_dmerge (a b : List (String × String)) (k : String)
    (hb : (b.map Prod.fst).Nodup) :
    alookup (dmerge a b) k =
      match alookup b k with
      | some v => some v
      | none => alookup a k := by
  induction b generalizing a with
  | nil => rfl
  | cons kv t ih =>
    obtain ⟨k0, v0⟩ := kv
    simp only [List.map_cons, List.nodup_cons] at hb
    simp only [dmerge, List.foldl_cons] at *
    by_cases h : k0 = k
    · subst h
      have ht : alookup t k0 = none := alookup_eq_none_of_not_mem t k0 hb.1
      rw [alookup_foldl_dinsert_of_not_mem t _ k0 hb.1, alookup_dinsert, if_pos rfl]
      simp [alookup, ht]
    · rw [ih _ hb.2]
      simp only [alookup]
      rw [if_neg h]
      have hd : alookup (dinsert a k0 v0) k = alookup a k := by
        rw [alookup_dinsert, if_neg (fun hh => h (Eq.symm hh))]
      cases alookup t k <;> simp [hd]

/-! ### Field Normalizer (`_get_entries` in `facts_db.py`, field-map part) -/

/-- One step of the first remapping loop of `_get_entries`: for a map entry
`(our_key, their_key)`, copy `r[their_key]` to `n[our_key]` when present. -/
def mapStep (r n : Rec) (ot : String × String) : Rec :=
  match alookup r ot.2 with
  | some v => dinsert n ot.1 v
  | none => n

/-- The first loop of `_get_entries`' record remapping, with accumulator. -/
def mapPassAux (r : Rec) : List (String × String) → Rec → Rec
  | [], n => n
  | ot :: fms, n => mapPassAux r fms (mapStep r n ot)

/-- Canonical-field pass: `for our_key, their_key in fm.items(): ...` starting
from the empty record. -/
def mapPass (fm : List (String × String)) (r : Rec) : Rec := mapPassAux r fm []

/-- One step of the second loop of `_get_entries`' record remapping: copy a
source binding unless its key is consumed by the map or already set. -/
def copyStep (fm : List (String × String)) (n : Rec) (kv : String × String) : Rec :=
  if kv.1 ∈ fm.map Prod.snd ∨ (alookup n kv.1).isSome then n
  else dinsert n kv.1 kv.2

/-- Pass-through pass: `for k, v in r.items(): ...` over the source record. -/
def copyPassAux (fm : List (String × String)) : List (String × String) → Rec → Rec
  | [], n => n
  | kv :: rs, n => copyPassAux fm rs (copyStep fm n kv)

/-- Normalization of one mapping record by `field_map[intent]`, exactly the
loop body of `_get_entries` (`facts_db.py` lines 68-79, upstream side). -/
def normalizeRecord (fm : List (String × String)) (r : Rec) : Rec :=
  copyPassAux fm r (mapPass fm r)

theorem mapPassAux_untouched (r : Rec) (fms : List (String × String)) (n : Rec)
    (k : String) (h : k ∉ fms.map Prod.fst) :
    alookup (mapPassAux r fms n) k = alookup n k := by
  induction fms generalizing n with
  | nil => rfl
  | cons ot t ih =>
    simp only [List.map_cons, List.mem_cons] at h
    push_neg at h
    simp only [mapPassAux]
    rw [ih _ h.2]
    unfold mapStep
    cases alookup r ot.2 with
    | none => rfl
    | some v => rw [alookup_dinsert, if_neg h.1]

theorem mapPass_binds (fm : List (String × String)) (r : Rec)
    (hfm : (fm.map Prod.fst).Nodup) (ourKey theirKey v : String)
    (hmem : (ourKey, theirKey) ∈ fm) (hv : alookup r theirKey = some v) :
    alookup (mapPass fm r) ourKey = some v := by
  unfold mapPass
  generalize hn : ([] : Rec) = n
  clear hn
  induction fm generalizing n with
  | nil => cases hmem
  | cons ot t ih =>
    simp only [List.map_cons, List.nodup_cons] at hfm
    rcases List.mem_cons.mp hmem with heq | hmem'
    · subst heq
      simp only [mapPassAux, mapStep, hv]
      exact (mapPassAux_untouched r t _ ourKey hfm.1).trans
        (by rw [alookup_dinsert, if_pos rfl])
    · exact ih hfm.2 hmem' _

theorem mapPass_keys (fm : List (String × String)) (r : Rec) (k : String)
    (h : k ∉ fm.map Prod.fst) : alookup (mapPass fm r) k = none :=
  (mapPassAux_untouched r fm [] k h).trans rfl

theorem copyPassAux_preserves (fm : List (String × String))
    (rs : List (String × String)) (n : Rec) (k v : String)
    (h : alookup n k = some v) : alookup (copyPassAux fm rs n) k = some v := by
  induction rs generalizing n with
  | nil => exact h
  | cons kv t ih =>
    simp only [copyPassAux]
    apply ih
    unfold copyStep
    split
    · exact h
    · next hcond =>
      push_neg at hcond
      rw [alookup_dinsert]
      . split
        · next heq =>
          exfalso
          subst heq
          rw [h] at hcond
          simp at hcond
        · exact h

theorem copyPassAux_adds (fm : List (String × String))
    (rs : List (String × String)) (n : Rec) (k v : String)
    (hnd : (rs.map Prod.fst).Nodup) (hmem : (k, v) ∈ rs)
    (hk : k ∉ fm.map Prod.snd) (hn : alookup n k = none) :
    alookup (copyPassAux fm rs n) k = some v := by
  induction rs generalizing n with
  | nil => cases hmem
  | cons kv t ih =>
    obtain ⟨k0, v0⟩ := kv
    simp only [List.map_cons, List.nodup_cons] at hnd
    by_cases hkk : k = k0
    · subst hkk
      have hv : v = v0 := by
        rcases List.mem_cons.mp hmem with heq | hmem'
        · have := congrArg Prod.snd heq
          simpa using this
        · exact absurd (List.mem_map.mpr ⟨(k, v), hmem', rfl⟩) hnd.1
      subst hv
      simp only [copyPassAux, copyStep]
      rw [if_neg (by simp [hk, hn])]
      exact copyPassAux_preserves fm t _ k v (by rw [alookup_dinsert, if_pos rfl])
    · have hmem' : (k, v) ∈ t := by
        rcases List.mem_cons.mp hmem with heq | hmem'
        · exact absurd (congrArg Prod.fst heq) hkk
        · exact hmem'
      simp only [copyPassAux]
      have hn' : alookup (copyStep fm n (k0, v0)) k = none := by
        unfold copyStep
        split
        · exact hn
        · rw [alookup_dinsert, if_neg hkk]
          exact hn
      exact ih _ hnd.2 hmem' hn'

theorem copyPassAux_skips_consumed (fm : List (String × String))
    (rs : List (String × String)) (n : Rec) (k : String)
    (hk : k ∈ fm.map Prod.snd) :
    alookup (copyPassAux fm rs n) k = alookup n k := by
  induction rs generalizing n with
  | nil => rfl
  | cons kv t ih =>
    simp only [copyPassAux]
    rw [ih]
    unfold copyStep
    split
    · rfl
    · next hcond =>
      push_neg at hcond
      rw [alookup_dinsert, if_neg (by intro hh; rw [hh] at hk; exact hcond.1 hk)]

/-! ### Schema Loader (`_load_facts` / `_get_entries` in `facts_db.py`) -/

/-- A top-level JSON value in a facts file, as far as the lookup layer
distinguishes them: a list of records, or anything that is not a list
(`_get_entries` treats non-list values as empty). -/
inductive JVal where
  | arr : List Rec → JVal
  | nonList : JVal
deriving DecidableEq

/-- A course facts file.  `data` is the full top-level key/value list of the
JSON document (keys starting with an underscore are stripped by the loader);
`schemaKeyMap` and `schemaFieldMap` are `_schema.key_map` and
`_schema.field_map`, with `[]` standing for an absent or null block (Python
`schema.get(...) or {}`). -/
structure FactsFile where
  data : List (String × JVal)
  schemaKeyMap : List (String × String)
  schemaFieldMap : List (String × List (String × String))
deriving DecidableEq

/-- `DEFAULT_KEY_MAP` from `backend/config.py`. -/
def defaultKeyMap : List (String × String) :=
  [("due_date", "due_dates"), ("instructor_info", "instructors"),
   ("coordinator", "coordinator"), ("ta_list", "tas"), ("links", "links")]

/-- Lookup in a string-to-JSON-value dict (Python `facts.get(key)`). -/
def jlookup : List (String × JVal) → String → Option JVal
  | [], _ => none
  | (k', v) :: t, k => if k' = k then some v else jlookup t k

/-- Lookup in a string-to-field-map dict (Python `field_map.get(intent)`). -/
def fmlookup : List (String × List (String × String)) → String → Option (List (String × String))
  | [], _ => none
  | (k', v) :: t, k => if k' = k then some v else fmlookup t k

/-- Schema metadata computed by `_load_facts`: the merged key map and the
field map. -/
structure Meta where
  key_map : List (String × String)
  field_map : List (String × List (String × String))

/-- `_load_facts` (upstream side): merge `DEFAULT_KEY_MAP` with the schema's
`key_map` override (`{**DEFAULT_KEY_MAP, **(schema.get("key_map") or {})}`)
and strip underscore-prefixed keys from the data. -/
def loadFacts (file : FactsFile) : List (String × JVal) × Meta :=
  (file.data.filter fun kv => ¬ pyStartsWith "_" kv.1,
   ⟨dmerge defaultKeyMap file.schemaKeyMap, file.schemaFieldMap⟩)

/-- The raw entry list stored at a category key: `facts.get(data_key, [])`
followed by the `isinstance(raw_entries, list)` check of `_get_entries`
(non-list values are treated as empty). -/
def rawEntriesAt (facts : List (String × JVal)) (key : String) : List Rec :=
  match jlookup facts key with
  | some (JVal.arr es) => es
  | _ => []

/-- The field-map part of `_get_entries`: apply `field_map[intent]` to each
record when a non-empty map exists (`if not fm: return raw_entries`).  The
model's raw lists contain only mapping records, so the `isinstance(r, dict)`
skip of the source never fires and is not represented. -/
def applyFieldMap (field_map : List (String × List (String × String)))
    (intent : String) (raw : List Rec) : List Rec :=
  match fmlookup field_map intent with
  | none => raw
  | some fm => if fm = [] then raw else raw.map (normalizeRecord fm)

/-- `_get_entries`: pick the category key via `key_map.get(intent, intent)`,
fetch the raw list, and normalize record fields. -/
def getEntries (facts : List (String × JVal)) (intent : String) (meta : Meta) :
    List Rec :=
  let dataKey := (alookup meta.key_map intent).getD intent
  applyFieldMap meta.field_map intent (rawEntriesAt facts dataKey)

/-- Entries a resolver sees for an intent: load then fetch (each resolver in
the source calls `_load_facts` + `_get_entries` itself). -/
def entriesFor (file : FactsFile) (intent : String) : List Rec :=
  getEntries (loadFacts file).1 intent (loadFacts file).2

/-- The facts dict after underscore-key stripping. -/
def factsOf (file : FactsFile) : List (String × JVal) := (loadFacts file).1

/-- Modelled from the spec's words for comparison with the source's merged
map: the category key is the schema override's entry for the intent when
present, otherwise the baseline default map's entry when present, otherwise
the intent name itself. -/
def chosenKey (file : FactsFile) (intent : String) : String :=
  match alookup file.schemaKeyMap intent with
  | some k => k
  | none => (alookup defaultKeyMap intent).getD intent

/-! ### Citations (`backend/models.py`) -/

/-- `Citation`: answer text, exact source quote, and source identifier. -/
structure Citation where
  text : String
  quote : String
  source : String
deriving DecidableEq

/-! ### Assessment normalization (`_normalize_assessment`) -/

/-- The alias dict of `_normalize_assessment` (`facts_db.py` lines 101-108). -/
def aliasTable : List (String × String) :=
  [("hw1", "hw1"), ("homework1", "hw1"), ("homework 1", "hw1"),
   ("hw2", "hw2"), ("homework2", "hw2"),
   ("hw3", "hw3"), ("hw4", "hw4"), ("hw5", "hw5"), ("hw6", "hw6"),
   ("hw7", "hw7"), ("hw8", "hw8"), ("hw9", "hw9"),
   ("midterm1", "midterm_1"), ("midterm 1", "midterm_1"),
   ("midterm_2", "midterm_2"), ("midterm 2", "midterm_2"),
   ("syllabus_quiz", "syllabus_quiz"), ("quiz", "syllabus_quiz"),
   ("final", "final_exam"), ("final_exam", "final_exam")]

/-- The string transformation of `_normalize_assessment` applied to a truthy
input: `s.lower().strip().replace(" ", "_").replace("-", "_")` then the alias
table (`aliases.get(s, s)`). -/
def normCore (s : String) : String :=
  let t := pyReplace '-' '_' (pyReplace ' ' '_' (pyTrim (pyLower s)))
  (alookup aliasTable t).getD t

/-- `_normalize_assessment`: `None`/empty input maps to `None` (Python
`if not s: return None`), otherwise the normalized name. -/
def normalizeAssessment : Option String → Option String
  | none => none
  | some s => if s = "" then none else some (normCore s)

/-! ### Fact Resolvers (upstream side of `facts_db.py`) -/

/-- Matching predicate of the `lookup_due_date` loop: the record's assessment
field (or `item` fallback), lowercased with hyphens replaced by underscores,
equals the normalized slot. -/
def dueMatchPred (norm : String) (e : Rec) : Bool :=
  pyReplace '-' '_' (pyLower (rget2 e "assessment" "item" "")) == norm

/-- Answer text for a matched due-date record, including the optional note
suffix (`if e.get("note"): text += ...`). -/
def dueAnswerText (e : Rec) : String :=
  let a := rget2 e "assessment" "item" ""
  let due := rget2 e "due_date" "deadline" ""
  let wf := rget2 e "where_find" "instructions" ""
  let ws := rget2 e "where_submit" "submit_to" ""
  let base := a ++ " is due " ++ due ++ ". Find it: " ++ wf ++ ". Submit: " ++ ws ++ "."
  match alookup e "note" with
  | some nt => if nt = "" then base else base ++ " Note: " ++ nt ++ "."
  | none => base

/-- Citation for a matched due-date record. -/
def dueCitMatch (e : Rec) : Citation :=
  let due := rget2 e "due_date" "deadline" ""
  ⟨due, (alookup e "quote").getD due, (alookup e "source").getD ""⟩

/-- One line of the "list everything" due-date answer (note the `"?"`
defaults, which differ from the matched path's `""`). -/
def dueListPart (e : Rec) : String :=
  rget2 e "assessment" "item" "?" ++ ": " ++ rget2 e "due_date" "deadline" "?" ++
    " (" ++ rget2 e "where_submit" "submit_to" "?" ++ ")"

/-- Citation for one line of the "list everything" due-date answer. -/
def dueListCit (e : Rec) : Citation :=
  let due := rget2 e "due_date" "deadline" "?"
  ⟨due, (alookup e "quote").getD due, (alookup e "source").getD ""⟩

/-- The matched record of the `lookup_due_date` loop (`None` when the slot is
falsy or nothing matches, in which case the loop falls through to the
listing). -/
def dueFound (assessment : Option String) (entries : List Rec) : Option Rec :=
  match assessment with
  | some s => if s = "" then none else entries.find? (dueMatchPred (normCore s))
  | none => none

/-- `lookup_due_date` (upstream), with the entry list already fetched. -/
def lookupDueDate (assessment : Option String) (entries : List Rec) :
    String × List Citation :=
  if entries = [] then ("No due dates in database for this course yet.", [])
  else
    match dueFound assessment entries with
    | some e => (dueAnswerText e, [dueCitMatch e])
    | none =>
      ("Deliverable due dates:\n" ++ pyJoin "\n" (entries.map dueListPart),
       entries.map dueListCit)

/-- Section shown in instructor answers: Python renders `e.get("section")`
in an f-string, so a missing field prints as `None`. -/
def secShow (e : Rec) : String := (alookup e "section").getD "None"

/-- Matched-section instructor answer text (the em dash appears in the source
as the bytes rendered here). -/
def instAnswerText (e : Rec) : String :=
  let inst := rget2 e "instructor" "name" ""
  let whn := rget2 e "when" "time" ""
  let whr := rget2 e "where" "location" ""
  let contact := rget2 e "contact" "email" ""
  "Section " ++ secShow e ++ ": " ++ inst ++ " â€” " ++ whn ++
    " at " ++ whr ++ ". Contact: " ++ contact ++ "."

/-- Citation for an instructor record. -/
def instCit (e : Rec) : Citation :=
  let inst := rget2 e "instructor" "name" ""
  ⟨inst, (alookup e "quote").getD inst, (alookup e "source").getD ""⟩

/-- One line of the "list everything" instructor answer. -/
def instListPart (e : Rec) : String :=
  "Section " ++ secShow e ++ ": " ++ rget2 e "instructor" "name" "" ++ " (" ++
    rget2 e "when" "time" "" ++ ", " ++ rget2 e "where" "location" "" ++ ")"

/-- The matched record of the `lookup_instructor` section loop. -/
def instFound (sectionSlot : Option String) (entries : List Rec) : Option Rec :=
  match sectionSlot with
  | some s =>
    if s = "" then none
    else entries.find? fun e => (alookup e "section").getD "" == s
  | none => none

/-- `lookup_instructor` (upstream), with the entry list already fetched. -/
def lookupInstructor (sectionSlot : Option String) (entries : List Rec) :
    String × List Citation :=
  if entries = [] then ("No instructor info in database for this course yet.", [])
  else
    match instFound sectionSlot entries with
    | some e => (instAnswerText e, [instCit e])
    | none =>
      ("Instructors:\n" ++ pyJoin "\n" (entries.map instListPart),
       entries.map instCit)

/-- `lookup_coordinator` (upstream): always the first record. -/
def lookupCoordinator (entries : List Rec) : String × List Citation :=
  match entries with
  | [] => ("No coordinator info in database for this course yet.", [])
  | e :: _ =>
    let name := (alookup e "name").getD ""
    let email := (alookup e "email").getD ""
    let purpose := (alookup e "purpose").getD ""
    ("Course coordinator: " ++ name ++ " (" ++ email ++ "). Contact for: " ++
       purpose ++ ".",
     [⟨name, (alookup e "quote").getD name, (alookup e "source").getD ""⟩])

/-- `lookup_ta_list` (upstream): one citation quoting the comma-joined names. -/
def lookupTaList (entries : List Rec) : String × List Citation :=
  if entries = [] then ("No TA list in database for this course yet.", [])
  else
    let names := entries.map fun e => rget2 e "name" "ta" ""
    let quote := pyJoin ", " names
    let source := match entries with
      | e :: _ => (alookup e "source").getD "course_rules.md"
      | [] => "course_rules.md"
    ("TAs: " ++ pyJoin ", " names, [⟨"TA list", quote, source⟩])

/-- Citation for a link record. -/
def linkCit (e : Rec) : Citation :=
  let name := rget2 e "name" "title" ""
  ⟨name, (alookup e "quote").getD name, (alookup e "source").getD ""⟩

/-- One line of a links answer. -/
def linkPart (e : Rec) : String :=
  rget2 e "name" "title" "" ++ ": " ++ rget2 e "url" "href" ""

/-- The matched record of the `lookup_links` loop: case-insensitive substring
match of the `link_type` slot against name or URL, first match wins. -/
def linkFound (linkType : Option String) (entries : List Rec) : Option Rec :=
  match linkType with
  | some s =>
    if s = "" then none
    else
      let lt := pyLower s
      entries.find? fun e =>
        pyContains lt (pyLower (rget2 e "name" "title" "")) ||
          pyContains lt (pyLower (rget2 e "url" "href" ""))
  | none => none

/-- `lookup_links` (upstream), with the entry list already fetched. -/
def lookupLinks (linkType : Option String) (entries : List Rec) :
    String × List Citation :=
  if entries = [] then ("No links in database for this course yet.", [])
  else
    match linkFound linkType entries with
    | some e => (linkPart e, [linkCit e])
    | none =>
      ("Important links:\n" ++ pyJoin "\n" (entries.map linkPart),
       entries.map linkCit)

/-! ### Lookup Orchestrator (`lookup_facts` in `facts_db.py`) -/

/-- The slot set attached to a classified intent (`slots.get(...)` accesses). -/
structure Slots where
  assessment : Option String := none
  topic : Option String := none
  role : Option String := none
  sectionSlot : Option String := none
  link_type : Option String := none
deriving DecidableEq

/-- What a `search_md` call would return: `(answer, citations, confidence)`.
The markdown search reads files, so the orchestrator model takes its result
as an explicit argument. -/
structure MdResult where
  answer : String
  citations : List Citation
  confidence : ℚ
deriving DecidableEq

/-- The intents for which `lookup_facts` has a markdown fallback
(`facts_db.py` lines 321-323). -/
def fallbackIntents : List String :=
  ["due_date", "instructor_info", "coordinator", "ta_list", "links"]

/-- The escalation test of `lookup_facts`:
`not answer or "not yet" in answer.lower() or "no " in answer.lower()[:10]`. -/
def needsFallback (answer : String) : Bool :=
  answer == "" || pyContains "not yet" (pyLower answer) ||
    pyContains "no " (pyTake 10 (pyLower answer))

/-- The acceptance gate for a fallback result:
`if md_answer and confidence >= 0.8`. -/
def mdAccepted (md : MdResult) : Bool :=
  if md.answer ≠ "" ∧ (4 / 5 : ℚ) ≤ md.confidence then true else false

/-- The `_lookup()` dispatch inside `lookup_facts` (upstream side): one
structured resolver per intent; `lecture_schedule` and `reference_material`
return a fixed pointer; unknown intents (including `general_policy`) fall
through to `("", [])`. -/
def structuredLookup (intent : String) (slots : Slots) (file : FactsFile) :
    String × List Citation :=
  if intent = "due_date" then
    lookupDueDate slots.assessment (entriesFor file "due_date")
  else if intent = "instructor_info" then
    lookupInstructor slots.sectionSlot (entriesFor file "instructor_info")
  else if intent = "coordinator" then
    lookupCoordinator (entriesFor file "coordinator")
  else if intent = "ta_list" then
    lookupTaList (entriesFor file "ta_list")
  else if intent = "links" then
    lookupLinks slots.link_type (entriesFor file "links")
  else if intent = "lecture_schedule" ∨ intent = "reference_material" then
    ("See the full lecture schedule and reference material in course_rules.md.",
     [⟨"course_rules.md", "Lecture schedule (tentative)", "course_rules.md"⟩])
  else ("", [])

/-- `lookup_facts` (upstream side).  `file?` is the result of resolving the
course's facts file (`none` models the `FileNotFoundError` raised by
`_load_facts`, surfaced as `Except.error`); `md` is what `search_md` would
return for this intent, slots and course.  `out_of_scope` refuses before any
loading; the markdown fallback is consulted only for `fallbackIntents` whose
structured answer fails the `needsFallback` test, and its result is kept only
when accepted. -/
def lookupFacts (intent : String) (slots : Slots) (file? : Option FactsFile)
    (md : MdResult) : Except Unit (String × List Citation) :=
  if intent = "out_of_scope" then .ok ("", [])
  else
    match file? with
    | none => .error ()
    | some file =>
      if needsFallback (structuredLookup intent slots file).1 = true ∧
          intent ∈ fallbackIntents then
        if mdAccepted md then .ok (md.answer, md.citations)
        else .ok (structuredLookup intent slots file)
      else .ok (structuredLookup intent slots file)

/-! ### Markdown TA-list fallback (`md_search.py`) -/

/-- Replacement pass of `_strip_md_links`, the regex substitution
`re.sub(r'\[([text])\](url)', group 1)`: scan left to right; at `[`, take a
non-empty run of non-`]` characters, then require `](`, a non-empty run of
non-`)` characters and `)`; on success emit the link text and continue after
the match, otherwise emit `[` and continue one character later.  Fuel is the
remaining length (each step consumes at least one character). -/
def linkSubF : Nat → List Char → List Char
  | 0, l => l
  | _ + 1, [] => []
  | f + 1, c :: rest =>
    if c = '[' then
      let txt := rest.takeWhile fun x => x ≠ ']'
      match txt, rest.drop txt.length with
      | _ :: _, ']' :: '(' :: r2 =>
        let url := r2.takeWhile fun x => x ≠ ')'
        match url, r2.drop url.length with
        | _ :: _, ')' :: r4 => txt ++ linkSubF f r4
        | _, _ => c :: linkSubF f rest
      | _, _ => c :: linkSubF f rest
    else c :: linkSubF f rest

/-- `_strip_md_links`: the substitution above followed by `.strip()`. -/
def stripMdLinksL (l : List Char) : List Char :=
  pyTrimL (linkSubF (l.length + 1) l)

/-- Whether a line is a list item (`line.strip().startswith('- ')` or `'* '`). -/
def isListItemLine (line : List Char) : Bool :=
  isPref "- ".data (pyTrimL line) || isPref "* ".data (pyTrimL line)

/-- Item text extracted from a list-item line:
`_strip_md_links(line.strip()[2:]).strip()`. -/
def listItemText (line : List Char) : String :=
  ⟨pyTrimL (stripMdLinksL ((pyTrimL line).drop 2))⟩

/-- The loop of `_extract_list_items`, one iteration per line: first the
section trigger (`section_hint.lower() in line.lower()` on any line), then
the item collection, then the break on a `## ` heading not containing the
hint (case-sensitive). -/
def extractAux (hint : String) : List (List Char) → Bool → List String
  | [], _ => []
  | line :: rest, inSec =>
    let inSec2 := inSec || (!hint.data.isEmpty &&
      pyContainsL (pyLowerL hint.data) (pyLowerL line))
    let here := if inSec2 && isListItemLine line then [listItemText line] else []
    if inSec2 && isPref "## ".data line && !pyContainsL hint.data line then here
    else here ++ extractAux hint rest inSec2

/-- `_extract_list_items(content, section_hint)`. -/
def extractListItems (content hint : String) : List String :=
  extractAux hint (pySplitL '\n' content.data) false

/-- `search_md_tas`: `content?` is the course's markdown document (`none`
models a missing file, `_course_to_md_path` returning `None`); `src` is the
file name used as citation source.  Requires at least 3 extracted items, then
keeps items that are non-empty and not URLs, reporting confidence 0.9. -/
def searchMdTas (content? : Option String) (src : String) :
    String × List Citation × ℚ :=
  match content? with
  | none => ("", [], 0)
  | some content =>
    let items := extractListItems content "TAs"
    if 3 ≤ items.length then
      let names := (items.filter fun i => i ≠ "" && !pyStartsWith "http" i).map
        fun i => pyTrim ⟨i.data.takeWhile fun c => c ≠ '('⟩
      if names = [] then ("", [], 0)
      else
        let quote := pyJoin ", " (names.take 5) ++
          (if 5 < names.length then "..." else "")
        ("TAs: " ++ pyJoin ", " names, [⟨"TA list", quote, src⟩], 9 / 10)
    else ("", [], 0)

/-! ### Helper lemmas about the resolvers and the orchestrator -/

/-- The fixed "unavailable" placeholder messages of the five structured
resolvers, the only non-empty structured answers carrying no citations. -/
def placeholderMessages : List String :=
  ["No due dates in database for this course yet.",
   "No instructor info in database for this course yet.",
   "No coordinator info in database for this course yet.",
   "No TA list in database for this course yet.",
   "No links in database for this course yet."]

theorem lookupDueDate_empty_citations (a : Option String) (es : List Rec)
    (h : (lookupDueDate a es).2 = []) :
    (lookupDueDate a es).1 = "No due dates in database for this course yet." := by
  by_cases he : es = []
  · simp [lookupDueDate, he]
  · rcases hf : dueFound a es with _ | e <;>
      simp [lookupDueDate, he, hf] at h

theorem lookupInstructor_empty_citations (a : Option String) (es : List Rec)
    (h : (lookupInstructor a es).2 = []) :
    (lookupInstructor a es).1 =
      "No instructor info in database for this course yet." := by
  by_cases he : es = []
  · simp [lookupInstructor, he]
  · rcases hf : instFound a es with _ | e <;>
      simp [lookupInstructor, he, hf] at h

theorem lookupCoordinator_empty_citations (es : List Rec)
    (h : (lookupCoordinator es).2 = []) :
    (lookupCoordinator es).1 =
      "No coordinator info in database for this course yet." := by
  cases es with
  | nil => rfl
  | cons e t => simp [lookupCoordinator] at h

theorem lookupTaList_empty_citations (es : List Rec)
    (h : (lookupTaList es).2 = []) :
    (lookupTaList es).1 = "No TA list in database for this course yet." := by
  by_cases he : es = []
  · simp [lookupTaList, he]
  · simp [lookupTaList, he] at h

theorem lookupLinks_empty_citations (a : Option String) (es : List Rec)
    (h : (lookupLinks a es).2 = []) :
    (lookupLinks a es).1 = "No links in database for this course yet." := by
  by_cases he : es = []
  · simp [lookupLinks, he]
  · rcases hf : linkFound a es with _ | e <;>
      simp [lookupLinks, he, hf] at h

/-- Every structured answer with no citations is either empty or one of the
fixed placeholder messages. -/
theorem structuredLookup_empty_citations (intent : String) (slots : Slots)
    (file : FactsFile) (h : (structuredLookup intent slots file).2 = []) :
    (structuredLookup intent slots file).1 = "" ∨
      (structuredLookup intent slots file).1 ∈ placeholderMessages := by
  unfold structuredLookup at *
  split_ifs at h ⊢ with h1 h2 h3 h4 h5 h6
  · exact Or.inr (by rw [lookupDueDate_empty_citations _ _ h]; simp [placeholderMessages])
  · exact Or.inr (by rw [lookupInstructor_empty_citations _ _ h]; simp [placeholderMessages])
  · exact Or.inr (by rw [lookupCoordinator_empty_citations _ h]; simp [placeholderMessages])
  · exact Or.inr (by rw [lookupTaList_empty_citations _ h]; simp [placeholderMessages])
  · exact Or.inr (by rw [lookupLinks_empty_citations _ _ h]; simp [placeholderMessages])
  · exact Or.inl rfl

/-- The acceptance gate, as a proposition. -/
theorem mdAccepted_iff (md : MdResult) :
    mdAccepted md = true ↔ md.answer ≠ "" ∧ (4 / 5 : ℚ) ≤ md.confidence := by
  unfold mdAccepted
  split_ifs with h <;> simp [h]

/-! ### Concrete data used by counterexamples and witnesses -/

/-- A facts file with no data at all (every category resolves to empty). -/
def emptyFile : FactsFile := ⟨[], [], []⟩

/-- The markdown-search outcome when no markdown file exists for the course
(`search_md` returns `("", [], 0.0)`). -/
def mdNone : MdResult := ⟨"", [], 0⟩

/-- The spec's CPSC 330 example due-date record. -/
def rec330 : Rec :=
  [("assessment", "hw1"), ("due_date", "Jan 12, 11:59 pm"),
   ("where_find", "GitHub"), ("where_submit", "Gradescope"),
   ("quote", "Jan 12, 11:59 pm"), ("source", "cpsc_330_rules.md")]

/-- The spec's CPSC 330 example facts file: one due-date record. -/
def file330 : FactsFile := ⟨[("due_dates", JVal.arr [rec330])], [], []⟩

/-- Slot set requesting assessment `hw1`. -/
def slotsHw1 : Slots := { assessment := some "hw1" }

/-! ### C2 — out_of_scope refusal -/

/-- C2: for every slot set, every course (whether or not a facts store is
registered, `file?` ranging over `none` too) and every possible
markdown-search outcome, `lookup_facts("out_of_scope", ...)` returns exactly
`("", [])` and never errors: the refusal happens before the facts store is
loaded and the result is independent of the markdown fallback, which is
therefore never consulted. -/
theorem out_of_scope_refusal (slots : Slots) (file? : Option FactsFile)
    (md : MdResult) : lookupFacts "out_of_scope" slots file? md = .ok ("", []) :=
  rfl

/-! ### C8 — normalization idempotence -/

/-- The aliases named by the claim: `hw1`..`hw9`, `midterm1`, `midterm 2`,
`quiz`, `final`, and the listed targets. -/
def knownAssessmentAliases : List String :=
  ["hw1", "hw2", "hw3", "hw4", "hw5", "hw6", "hw7", "hw8", "hw9",
   "midterm1", "midterm 2", "quiz", "final",
   "midterm_1", "midterm_2", "syllabus_quiz", "final_exam"]

/-- C8: `_normalize_assessment` is idempotent on all known assessment
aliases and their targets — normalizing twice equals normalizing once. -/
theorem normalize_assessment_idempotent :
    (knownAssessmentAliases.all fun s =>
      decide (normalizeAssessment (normalizeAssessment (some s)) =
        normalizeAssessment (some s))) = true := by decide

/-! ### C4 — general_policy has no resolver and no fallback -/

/-- A facts file holding a general-policies record under the category the
extraction pipeline would use, with a key-map entry for the intent. -/
def polFile : FactsFile :=
  ⟨[("general_policies",
     JVal.arr [[("title", "Late Policy"), ("summary", "Late work loses 10%"),
                ("quote", "Late work loses 10%"), ("source", "rules.md")]])],
   [("general_policy", "general_policies")], []⟩

/-- A markdown-search outcome that would pass the acceptance gate if it were
ever consulted. -/
def mdRich : MdResult := ⟨"Late Policy: late work loses 10%", [⟨"Late Policy", "Late work loses 10%", "rules.md"⟩], 1⟩

/-- C4 counterexample: with a stored policy record matching the topic slot
and an acceptable markdown fallback available, `lookup_facts` for
`general_policy` still returns `("", [])` — no stored policy record is
matched and the markdown fallback is not invoked, contradicting the claimed
general-policy resolution. -/
theorem general_policy_counterexample :
    lookupFacts "general_policy" { topic := some "late" } (some polFile) mdRich =
      .ok ("", []) := rfl

/-- C4 (amended): for intent `general_policy`, `lookup_facts` returns the
empty answer with no citations for every slot set, facts store and
markdown-search outcome: `_lookup` has no general-policy branch (the intent
falls through to `("", [])`) and `general_policy` is not among the fallback
intents, so the markdown fallback is never consulted for it. -/
theorem general_policy_returns_empty (slots : Slots) (file : FactsFile)
    (md : MdResult) :
    lookupFacts "general_policy" slots (some file) md = .ok ("", []) := rfl

/-! ### C1 — non-empty answers and citations -/

/-- C1 counterexample: a course whose store has no due-date records (and no
usable markdown document) yields a non-empty answer with an empty citation
list, so "every non-empty answer carries at least one citation" fails as
stated. -/
theorem nonempty_answer_empty_citations_counterexample :
    lookupFacts "due_date" {} (some emptyFile) mdNone =
        .ok ("No due dates in database for this course yet.", []) ∧
      "No due dates in database for this course yet." ≠ "" := by
  constructor
  · rfl
  · decide

/-- C1 (amended): whenever `lookup_facts` returns normally with a non-empty
answer, the citation list is non-empty unless the answer is one of the five
fixed "No ... in database for this course yet." placeholder messages, which
are returned with no citations.  The hypothesis on `md` states the invariant
of `search_md` (every non-empty fallback answer carries a citation), which
holds for each of its search routines. -/
theorem nonempty_answer_has_citation (intent : String) (slots : Slots)
    (file? : Option FactsFile) (md : MdResult) (res : String × List Citation)
    (hmd : md.answer ≠ "" → md.citations ≠ [])
    (hok : lookupFacts intent slots file? md = .ok res)
    (hne : res.1 ≠ "") (hph : res.1 ∉ placeholderMessages) : res.2 ≠ [] := by
  intro hnil
  unfold lookupFacts at hok
  by_cases hoos : intent = "out_of_scope"
  · rw [if_pos hoos] at hok
    simp only [Except.ok.injEq] at hok
    subst hok
    exact hne rfl
  · rw [if_neg hoos] at hok
    cases file? with
    | none => simp at hok
    | some file =>
      simp only [Except.ok.injEq] at hok
      have hstruct : structuredLookup intent slots file = res → False := by
        intro hres
        subst hres
        rcases structuredLookup_empty_citations intent slots file hnil with h | h
        · exact hne h
        · exact hph h
      by_cases hfb : needsFallback (structuredLookup intent slots file).1 = true ∧
          intent ∈ fallbackIntents
      · rw [if_pos hfb] at hok
        by_cases hacc : mdAccepted md = true
        · rw [if_pos hacc] at hok
          simp only [Except.ok.injEq] at hok
          subst hok
          exact hmd ((mdAccepted_iff md).mp hacc).1 hnil
        · rw [if_neg hacc] at hok
          simp only [Except.ok.injEq] at hok
          exact hstruct hok
      · rw [if_neg hfb] at hok
        simp only [Except.ok.injEq] at hok
        exact hstruct hok

/-- C1 amended-claim witness: the CPSC 330 `hw1` lookup returns normally
with a non-empty, non-placeholder answer, and the theorem yields a non-empty
citation list for it. -/
theorem nonempty_answer_has_citation_witness :
    (("hw1 is due Jan 12, 11:59 pm. Find it: GitHub. Submit: Gradescope.",
        [(⟨"Jan 12, 11:59 pm", "Jan 12, 11:59 pm", "cpsc_330_rules.md"⟩ :
          Citation)]).2 : List Citation) ≠ [] :=
  nonempty_answer_has_citation "due_date" slotsHw1 (some file330) mdNone
    ("hw1 is due Jan 12, 11:59 pm. Find it: GitHub. Submit: Gradescope.",
      [⟨"Jan 12, 11:59 pm", "Jan 12, 11:59 pm", "cpsc_330_rules.md"⟩])
    (fun h => absurd rfl h) (by rfl) (by decide) (by decide)

/-! ### C3 — the markdown fallback acceptance gate -/

/-- C3: whenever `lookup_facts` escalates to the markdown fallback (the
structured answer fails the `needsFallback` test and the intent has a
fallback), the fallback's pair is returned precisely when its answer is
non-empty and its confidence is at least 0.8 (`4/5`); otherwise — in
particular whenever the confidence is strictly below 0.8 — the structured
resolver's (possibly empty) answer and citations are returned instead. -/
theorem fallback_gate (intent : String) (slots : Slots) (file : FactsFile)
    (md : MdResult)
    (hesc : needsFallback (structuredLookup intent slots file).1 = true)
    (hint : intent ∈ fallbackIntents) :
    (md.answer ≠ "" → (4 / 5 : ℚ) ≤ md.confidence →
      lookupFacts intent slots (some file) md = .ok (md.answer, md.citations)) ∧
    (md.confidence < 4 / 5 ∨ md.answer = "" →
      lookupFacts intent slots (some file) md =
        .ok (structuredLookup intent slots file)) := by
  have hoos : ¬ intent = "out_of_scope" := by
    intro h
    subst h
    simp [fallbackIntents] at hint
  constructor
  · intro hne hconf
    unfold lookupFacts
    rw [if_neg hoos]
    simp only
    rw [if_pos ⟨hesc, hint⟩, if_pos ((mdAccepted_iff md).mpr ⟨hne, hconf⟩)]
  · intro hrej
    unfold lookupFacts
    rw [if_neg hoos]
    simp only
    rw [if_pos ⟨hesc, hint⟩, if_neg]
    intro hacc
    rcases (mdAccepted_iff md).mp hacc with ⟨hne, hconf⟩
    rcases hrej with hlt | hempty
    · exact absurd hconf (not_le.mpr hlt)
    · exact hne hempty

/-- A fallback outcome with confidence exactly 0.79. -/
def md79 : MdResult := ⟨"hw1 is due soon", [⟨"soon", "hw1 | soon", "r.md"⟩], 79 / 100⟩

/-- C3 witness: with an empty store (structured answer is the placeholder,
which triggers escalation) and a fallback answer at confidence 0.79, the
structured placeholder is returned, not the fallback. -/
theorem fallback_gate_witness :
    lookupFacts "due_date" {} (some emptyFile) md79 =
      .ok ("No due dates in database for this course yet.", []) := by
  have h := (fallback_gate "due_date" {} emptyFile md79 (by decide)
    (by decide)).2 (Or.inl (by norm_num [md79]))
  rw [h]
  have hs : structuredLookup "due_date" {} emptyFile =
      ("No due dates in database for this course yet.", []) := by decide
  rw [hs]

/-! ### C10 — exactly when the fallback is consulted -/

/-- C10: for the five fallback intents, whenever the structured answer is
empty, contains "not yet" (case-insensitively), or contains "no " in its
first 10 lowercased characters, the result is the gated choice between the
markdown outcome and the structured answer (the fallback is consulted and
can replace the answer); for every other situation — any other intent, or a
structured answer failing all three tests — the structured answer is
returned for every possible markdown outcome, so the fallback is never
consulted.  In particular a legitimate non-empty structured answer whose
first 10 lowercased characters contain "no " is subject to replacement (see
the witness). -/
theorem fallback_trigger (intent : String) (slots : Slots) (file : FactsFile)
    (md : MdResult) :
    (intent ∈ fallbackIntents →
      needsFallback (structuredLookup intent slots file).1 = true →
      lookupFacts intent slots (some file) md =
        .ok (if mdAccepted md then (md.answer, md.citations)
          else structuredLookup intent slots file)) ∧
    (intent ≠ "out_of_scope" →
      (intent ∉ fallbackIntents ∨
        needsFallback (structuredLookup intent slots file).1 = false) →
      lookupFacts intent slots (some file) md =
        .ok (structuredLookup intent slots file)) := by
  constructor
  · intro hint hesc
    have hoos : ¬ intent = "out_of_scope" := by
      intro h
      subst h
      simp [fallbackIntents] at hint
    unfold lookupFacts
    rw [if_neg hoos]
    simp only
    rw [if_pos ⟨hesc, hint⟩]
    by_cases hacc : mdAccepted md = true
    · rw [if_pos hacc, if_pos hacc]
    · rw [if_neg hacc, if_neg hacc]
  · intro hoos hcond
    unfold lookupFacts
    rw [if_neg hoos]
    simp only
    rw [if_neg]
    intro hfb
    rcases hcond with h | h
    · exact h hfb.2
    · rw [hfb.1] at h
      cases h

/-- A links store whose single entry happens to start with "No", a legitimate
stored fact. -/
def linksFileNo : FactsFile :=
  ⟨[("links", JVal.arr [[("name", "No GPUs FAQ"), ("url", "http://x"),
      ("quote", "No GPUs FAQ"), ("source", "s.md")]])], [], []⟩

/-- An accepted markdown outcome differing from the structured answer. -/
def md9 : MdResult := ⟨"GPUs: see the FAQ page", [⟨"GPUs", "q", "r.md"⟩], 9 / 10⟩

/-- C10 witness: the structured links answer "No GPUs FAQ: http://x" is
non-empty and legitimate, yet its first 10 lowercased characters contain
"no ", so the fallback is consulted and its accepted result replaces the
structured answer. -/
theorem fallback_trigger_witness :
    lookupFacts "links" { link_type := some "gpus" } (some linksFileNo) md9 =
      .ok ("GPUs: see the FAQ page", [⟨"GPUs", "q", "r.md"⟩]) := by
  have h := (fallback_trigger "links" { link_type := some "gpus" } linksFileNo
    md9).1 (by decide) (by decide)
  rw [h, if_pos ((mdAccepted_iff md9).mpr ⟨by decide, by norm_num [md9]⟩)]
  rfl

/-! ### C5 — field-map record normalization -/

/-- A field map whose canonical field `deadline` is bound from `hour` while
`deadline` is also consumed as the source for canonical `due_date`. -/
def fmOverlap : List (String × String) := [("deadline", "hour"), ("due_date", "deadline")]

/-- A record carrying both the `hour` and `deadline` source fields. -/
def recOverlap : Rec := [("hour", "5pm"), ("deadline", "Jan 12")]

/-- C5 counterexample: with the map above, the source field `deadline` is
consumed (it is the map's source for `due_date`), yet `deadline` still
appears in the normalized record — bound by the first loop as a canonical
field — so "a consumed source field name does not also appear in the
normalized record" fails as universally stated. -/
theorem field_map_counterexample :
    "deadline" ∈ fmOverlap.map Prod.snd ∧
      alookup (normalizeRecord fmOverlap recOverlap) "deadline" = some "5pm" := by
  constructor
  · decide
  · decide

/-- C5 (amended): for every intent with a field map and every mapping record
(both valid dicts, i.e. with distinct keys): (1) the normalized record binds
each canonical field named in the map to the value of its source field when
that source field is present; (2) every source field that is not a map
target and is not set by the canonical pass is copied through unchanged
(without overwriting: bindings made by the canonical pass survive, by (1));
and (3) a consumed source field name does not appear in the normalized
record unless it is itself a canonical field named in the map. -/
theorem field_map_normalization (fm : List (String × String)) (r : Rec)
    (hfm : (fm.map Prod.fst).Nodup) (hr : (r.map Prod.fst).Nodup) :
    (∀ ourKey theirKey v, (ourKey, theirKey) ∈ fm → alookup r theirKey = some v →
      alookup (normalizeRecord fm r) ourKey = some v) ∧
    (∀ k v, (k, v) ∈ r → k ∉ fm.map Prod.snd → alookup (mapPass fm r) k = none →
      alookup (normalizeRecord fm r) k = some v) ∧
    (∀ k, k ∈ fm.map Prod.snd → k ∉ fm.map Prod.fst →
      alookup (normalizeRecord fm r) k = none) := by
  refine ⟨?_, ?_, ?_⟩
  · intro ourKey theirKey v hmem hv
    exact copyPassAux_preserves fm r _ ourKey v (mapPass_binds fm r hfm ourKey theirKey v hmem hv)
  · intro k v hmem hk hnone
    exact copyPassAux_adds fm r _ k v hr hmem hk hnone
  · intro k hk hnk
    rw [normalizeRecord, copyPassAux_skips_consumed fm r _ k hk]
    exact mapPass_keys fm r k hnk

/-- C5 witness: the spec's `due_date` ← `deadline` example.  The canonical
field gets the source value, the untouched field `x` passes through, and the
consumed `deadline` (not itself canonical here) is gone. -/
theorem field_map_normalization_witness :
    alookup (normalizeRecord [("due_date", "deadline")]
        [("deadline", "Jan 12"), ("x", "y")]) "due_date" = some "Jan 12" ∧
      alookup (normalizeRecord [("due_date", "deadline")]
        [("deadline", "Jan 12"), ("x", "y")]) "x" = some "y" ∧
      alookup (normalizeRecord [("due_date", "deadline")]
        [("deadline", "Jan 12"), ("x", "y")]) "deadline" = none :=
  ⟨(field_map_normalization _ _ (by decide) (by decide)).1 "due_date" "deadline"
      "Jan 12" (by decide) (by decide),
   (field_map_normalization _ _ (by decide) (by decide)).2.1 "x" "y"
      (by decide) (by decide) (by decide),
   (field_map_normalization _ _ (by decide) (by decide)).2.2 "deadline"
      (by decide) (by decide)⟩

/-! ### C6 — category key selection -/

/-- C6: the records fetched for an intent come from the category key given by
the schema override when present, else the baseline `DEFAULT_KEY_MAP` entry
when present, else the intent name itself (`chosenKey` spells out exactly
this precedence); and when the value stored under that key is not a list the
entry list is empty.  The n-dup hypothesis states that the schema override is
a valid dict. -/
theorem key_selection (file : FactsFile) (intent : String)
    (hnd : (file.schemaKeyMap.map Prod.fst).Nodup) :
    entriesFor file intent =
      applyFieldMap file.schemaFieldMap intent
        (rawEntriesAt (factsOf file) (chosenKey file intent)) ∧
    (jlookup (factsOf file) (chosenKey file intent) = some JVal.nonList →
      entriesFor file intent = []) := by
  have hkey : (alookup (dmerge defaultKeyMap file.schemaKeyMap) intent).getD intent =
      chosenKey file intent := by
    rw [alookup_dmerge _ _ _ hnd]
    unfold chosenKey
    cases alookup file.schemaKeyMap intent with
    | some k => rfl
    | none => cases alookup defaultKeyMap intent with
      | some k => rfl
      | none => rfl
  have hmain : entriesFor file intent =
      applyFieldMap file.schemaFieldMap intent
        (rawEntriesAt (factsOf file) (chosenKey file intent)) := by
    unfold entriesFor getEntries loadFacts
    simp only
    rw [hkey]
    rfl
  refine ⟨hmain, fun hnl => ?_⟩
  rw [hmain]
  unfold rawEntriesAt
  rw [hnl]
  unfold applyFieldMap
  cases fmlookup file.schemaFieldMap intent with
  | none => rfl
  | some fm =>
    simp only
    split <;> rfl

/-- A facts file exercising both an overridden key and a non-list value. -/
def fileC6 : FactsFile :=
  ⟨[("assignments", JVal.arr [[("assessment", "hw1")]]), ("weird", JVal.nonList)],
   [("due_date", "assignments"), ("links", "weird")], []⟩

/-- C6 witness: with the override `due_date` → `assignments` the entries come
from `assignments`; with `links` → `weird` pointing at a non-list value the
entry list is empty. -/
theorem key_selection_witness :
    (entriesFor fileC6 "due_date" =
      applyFieldMap fileC6.schemaFieldMap "due_date"
        (rawEntriesAt (factsOf fileC6) (chosenKey fileC6 "due_date"))) ∧
    entriesFor fileC6 "links" = [] :=
  ⟨(key_selection fileC6 "due_date" (by decide)).1,
   (key_selection fileC6 "links" (by decide)).2 (by decide)⟩

/-! ### C7 — due-date lookup by assessment slot -/

/-- C7: if the due-date entries contain a record whose assessment field,
lowercased with hyphens replaced by underscores, equals the normalized
assessment slot, then the lookup returns the "X is due D. Find it: F.
Submit: S." answer built from the first such record (plus the optional note
suffix) together with exactly one citation whose text is the record's
due-date value, whose quote is the record's `quote` field and whose source
is the record's `source` field. -/
theorem due_date_match (s : String) (entries : List Rec) (e : Rec)
    (q src : String) (hs : s ≠ "")
    (hfind : entries.find? (dueMatchPred (normCore s)) = some e)
    (hq : alookup e "quote" = some q) (hsrc : alookup e "source" = some src) :
    lookupDueDate (some s) entries =
      (match alookup e "note" with
       | some nt =>
         if nt = "" then
           rget2 e "assessment" "item" "" ++ " is due " ++
             rget2 e "due_date" "deadline" "" ++ ". Find it: " ++
             rget2 e "where_find" "instructions" "" ++ ". Submit: " ++
             rget2 e "where_submit" "submit_to" "" ++ "."
         else
           rget2 e "assessment" "item" "" ++ " is due " ++
             rget2 e "due_date" "deadline" "" ++ ". Find it: " ++
             rget2 e "where_find" "instructions" "" ++ ". Submit: " ++
             rget2 e "where_submit" "submit_to" "" ++ "." ++ " Note: " ++ nt ++ "."
       | none =>
         rget2 e "assessment" "item" "" ++ " is due " ++
           rget2 e "due_date" "deadline" "" ++ ". Find it: " ++
           rget2 e "where_find" "instructions" "" ++ ". Submit: " ++
           rget2 e "where_submit" "submit_to" "" ++ ".",
       [⟨rget2 e "due_date" "deadline" "", q, src⟩]) := by
  have hne : entries ≠ [] := by
    intro h
    subst h
    simp [List.find?] at hfind
  have hfound : dueFound (some s) entries = some e := by
    simp [dueFound, hs, hfind]
  unfold lookupDueDate
  rw [if_neg hne, hfound]
  simp only [dueAnswerText, dueCitMatch, hq, hsrc, Option.getD_some]

/-- C7 witness: the spec's CPSC 330 end-to-end record. -/
theorem due_date_match_witness :
    lookupDueDate (some "hw1") [rec330] =
      ("hw1 is due Jan 12, 11:59 pm. Find it: GitHub. Submit: Gradescope.",
       [⟨"Jan 12, 11:59 pm", "Jan 12, 11:59 pm", "cpsc_330_rules.md"⟩]) := by
  have h := due_date_match "hw1" [rec330] rec330 "Jan 12, 11:59 pm"
    "cpsc_330_rules.md" (by decide) (by decide) (by decide) (by decide)
  rw [h]
  rfl

/-! ### C9 — TA-list fallback threshold -/

/-- C9: the TA-list markdown fallback returns an accepted result (non-empty
answer, exactly one citation, confidence 0.9) only when at least 3 list
items are extracted for the "TAs" section hint; for every document yielding
2 or fewer such items it returns `("", [], 0.0)`, an outcome the
orchestrator's acceptance gate always rejects. -/
theorem ta_fallback_threshold (content : String) (src : String) :
    ((searchMdTas (some content) src).1 ≠ "" →
      3 ≤ (extractListItems content "TAs").length ∧
        (searchMdTas (some content) src).2.1.length = 1 ∧
        (searchMdTas (some content) src).2.2 = 9 / 10) ∧
    ((extractListItems content "TAs").length ≤ 2 →
      searchMdTas (some content) src = ("", [], 0) ∧
        mdAccepted ⟨"", [], 0⟩ = false) := by
  constructor
  · intro hne
    simp only [searchMdTas] at hne ⊢
    by_cases h3 : 3 ≤ (extractListItems content "TAs").length
    · rw [if_pos h3] at hne ⊢
      by_cases hn : ((extractListItems content "TAs").filter fun i =>
          i ≠ "" && !pyStartsWith "http" i).map
            (fun i => pyTrim ⟨i.data.takeWhile fun c => c ≠ '('⟩) = []
      · rw [if_pos hn] at hne
        exact absurd rfl hne
      · rw [if_neg hn] at hne ⊢
        exact ⟨h3, rfl, rfl⟩
    · rw [if_neg h3] at hne
      exact absurd rfl hne
  · intro h2
    have h3 : ¬ 3 ≤ (extractListItems content "TAs").length := by omega
    constructor
    · simp only [searchMdTas]
      rw [if_neg h3]
    · decide

/-- Documents with three and with two TA list items. -/
def taDoc3 : String := "## TAs\n- Alice (a@x)\n- Bob\n- Carol\n"

/-- A TA section holding only two list items. -/
def taDoc2 : String := "## TAs\n- Alice\n- Bob\n"

/-- C9 witness: three extracted items give the accepted shape (one citation,
confidence 0.9); two items give the rejected `("", [], 0.0)` outcome that the
acceptance gate refuses. -/
theorem ta_fallback_threshold_witness :
    (3 ≤ (extractListItems taDoc3 "TAs").length ∧
      (searchMdTas (some taDoc3) "r.md").2.1.length = 1 ∧
      (searchMdTas (some taDoc3) "r.md").2.2 = 9 / 10) ∧
    (searchMdTas (some taDoc2) "r.md" = ("", [], 0) ∧
      mdAccepted ⟨"", [], 0⟩ = false) :=
  ⟨(ta_fallback_threshold taDoc3 "r.md").1 (by decide),
   (ta_fallback_threshold taDoc2 "r.md").2 (by decide)⟩

end PolicyLens
